import Mathlib

/-!
Verification of the rule-list build pipeline in `scripts/build.py`.

The script fetches four rule lists, loads their `payload` fields, removes
from the `direct` domain list every domain covered by a `google` suffix,
and re-exports the lists as Clash YAML documents and sing-box JSON rule
sources, optionally compiling the latter with the external `sing-box` tool.

All Python string manipulation is embedded faithfully:
`str.strip()` / `str.strip("'")` / `str.strip('"')` remove the given
characters from both ends of the string, and chained strips are kept as
separate passes (the chaining is semantically relevant: stripping double
quotes can expose single quotes or whitespace that a single pass would
not remove).
-/

/-- Characters removed by Python `str.strip()` with no argument
(ASCII whitespace: space, tab, newline, carriage return, vertical tab,
form feed). -/
def pySpace (c : Char) : Bool :=
  c.toNat == 32 || c.toNat == 9 || c.toNat == 10 || c.toNat == 13 ||
  c.toNat == 11 || c.toNat == 12

/-- Single-quote character test (code point 39). -/
def isSQ (c : Char) : Bool := c.toNat == 39

/-- Double-quote character test (code point 34). -/
def isDQ (c : Char) : Bool := c.toNat == 34

/-- Remove the characters satisfying `p` from both ends of a character
list: Python `str.strip(chars)`. -/
def stripList (p : Char → Bool) (l : List Char) : List Char :=
  ((l.dropWhile p).reverse.dropWhile p).reverse

/-- Python `s.strip(chars)` on strings. -/
def pyStrip (p : Char → Bool) (s : String) : String :=
  ⟨stripList p s.data⟩

/-- Python `s.strip()` (whitespace only). -/
def pyStripWS (s : String) : String := pyStrip pySpace s

/-- The chained `d.strip().strip("'").strip('"')` idiom used throughout
`build.py`. -/
def stripQW (s : String) : String :=
  pyStrip isDQ (pyStrip isSQ (pyStrip pySpace s))

/-- Python `d.startswith("+.")`. -/
def startsPlusDot (s : String) : Bool :=
  match s.data with
  | c1 :: c2 :: _ => c1 == '+' && c2 == '.'
  | _ => false

/-- Python `d[2:]` (drop the two-character wildcard marker). -/
def dropMarker (s : String) : String := ⟨s.data.drop 2⟩

/-- Embeds `normalize_domain` of `build.py`:
strip whitespace and surrounding quotes, then drop a leading `+.`
wildcard marker if present. -/
def normalize_domain (d : String) : String :=
  let d := stripQW d
  if startsPlusDot d then dropMarker d else d

/-- Embeds `split_domains` of `build.py`: each entry is stripped of
whitespace/quotes; entries starting with `+.` go to the suffix list with
the marker dropped, all others go to the exact list, preserving input
order. -/
def split_domains (domains : List String) : List String × List String :=
  match domains with
  | [] => ([], [])
  | d :: rest =>
    let d := stripQW d
    let p := split_domains rest
    if startsPlusDot d then (dropMarker d :: p.1, p.2) else (p.1, d :: p.2)

/-- Python `dd == s or dd.endswith("." + s)` for one suffix `s`:
the dot-boundary test of `remove_intersections`. -/
def endsWithDot (dd s : String) : Bool :=
  List.isSuffixOf ('.' :: s.data) dd.data

/-- Python `any(dd == s or dd.endswith("." + s) for s in gs)`.
The Python code builds `gs = set(google_suffixes)`; since the set is used
only for this existential membership test, it is embedded as `List.any`
over the suffix list, which has the same truth value. -/
def hit (gs : List String) (dd : String) : Bool :=
  gs.any (fun s => dd == s || endsWithDot dd s)

/-- Embeds `remove_intersections` of `build.py`: for each entry `d`,
`raw` is the quote/whitespace-stripped form and `dd` its normalized
form; entries whose `dd` equals, or is a dot-separated subdomain of,
some exclusion suffix are dropped; retained entries are emitted as
`raw` (Python `raw if raw else d`: the original `d` only when `raw`
is empty). -/
def remove_intersections (direct_domains google_suffixes : List String) :
    List String :=
  match direct_domains with
  | [] => []
  | d :: rest =>
    let raw := stripQW d
    let dd := normalize_domain raw
    if hit google_suffixes dd then remove_intersections rest google_suffixes
    else (if raw == "" then d else raw) ::
      remove_intersections rest google_suffixes

/-- The string emitted by `remove_intersections` for a retained entry:
Python `raw if raw else d`. -/
def emitEntry (d : String) : String :=
  let raw := stripQW d
  if raw == "" then d else raw

/-- Embeds the Python `sorted(set(xs))` idiom: the sorted list of the
distinct elements of `xs`. -/
def sorted_set (xs : List String) : List String :=
  List.insertionSort (· ≤ ·) xs.dedup

/-- One rule block of a sing-box rule-source document. -/
inductive SBRule where
  | domain_suffix (xs : List String)
  | domain (xs : List String)
  | ip_cidr (xs : List String)
deriving DecidableEq

/-- The entry list held by a rule block. -/
def SBRule.entries : SBRule → List String
  | .domain_suffix xs => xs
  | .domain xs => xs
  | .ip_cidr xs => xs

/-- A sing-box rule-source document: `{"version": 4, "rules": [...]}`. -/
structure SBSource where
  version : Nat
  rules : List SBRule
deriving DecidableEq

/-- Embeds `to_singbox_source_for_domains` of `build.py`: split into
suffix/exact categories, emit one sorted deduplicated block per
non-empty category (Python `if suffixes:` / `if exacts:` truthiness). -/
def to_singbox_source_for_domains (domains : List String) : SBSource :=
  let p := split_domains domains
  let r1 : List SBRule :=
    if p.1.isEmpty then [] else [SBRule.domain_suffix (sorted_set p.1)]
  let r2 : List SBRule :=
    if p.2.isEmpty then [] else [SBRule.domain (sorted_set p.2)]
  ⟨4, r1 ++ r2⟩

/-- Embeds `to_singbox_source_for_ipcidr` of `build.py`: every entry is
stripped of whitespace/quotes (`str(x)` is the identity here because the
loader already produced strings) and the single `ip_cidr` block is
emitted unconditionally. -/
def to_singbox_source_for_ipcidr (cidrs : List String) : SBSource :=
  ⟨4, [SBRule.ip_cidr (cidrs.map stripQW)]⟩

/-- The data written by `save_clash_yaml`: a YAML document whose only
field is `payload`. -/
structure ClashYaml where
  payload : List String
deriving DecidableEq

/-- Embeds `save_clash_yaml` of `build.py`, modelling the written YAML
document by its `payload` field: the input list is serialized verbatim
(`sort_keys=False`, no reordering or deduplication of the list). -/
def save_clash_yaml (payload_list : List String) : ClashYaml :=
  ⟨payload_list⟩

/-- A parsed YAML value, covering the shapes `yaml.safe_load` can return
that `load_payload` distinguishes: strings, integers, booleans
(`isinstance(x, int)` is true for Python booleans), sequences, mappings,
null, and a catch-all for every other scalar kind (floats etc.), which
`load_payload` filters out. -/
inductive YVal where
  | s (v : String)
  | i (n : Int)
  | b (v : Bool)
  | list (xs : List YVal)
  | map (entries : List (String × YVal))
  | null
  | other

/-- Python `data.get(k)` on a mapping: the value at the first matching
key, or `None`. -/
def dictGet (entries : List (String × YVal)) (k : String) : Option YVal :=
  (entries.find? (fun p => p.1 == k)).map (fun p => p.2)

/-- Python `str(x)` for the values kept by the loader filter. -/
def pyStr : YVal → String
  | .s v => v
  | .i n => toString n
  | .b true => "True"
  | .b false => "False"
  | _ => ""

/-- Python `isinstance(x, (str, int))`; booleans count as `int`. -/
def isStrInt : YVal → Bool
  | .s _ => true
  | .i _ => true
  | .b _ => true
  | _ => false

/-- Embeds `load_payload` of `build.py`, with the file read and YAML
parse modelled by the already-parsed document: `payload = data.get("payload")`
when the top level is a mapping, else `None`; raise `ValueError` unless
`payload` is a list; keep the whitespace-stripped `str(x)` of the
`str`/`int` items that are non-blank after stripping. The Python error
message interpolates the file path, which the model omits. -/
def load_payload (data : YVal) : Except String (List String) :=
  let payload : Option YVal :=
    match data with
    | .map es => dictGet es "payload"
    | _ => none
  match payload with
  | some (.list xs) =>
    .ok (xs.filterMap (fun x =>
      if isStrInt x then
        let t := pyStripWS (pyStr x)
        if t == "" then none else some t
      else none))
  | _ => .error "Invalid rule-set YAML"

/-- `true` when `load_payload` raises. -/
def loadFails (data : YVal) : Bool :=
  match load_payload data with
  | .error _ => true
  | .ok _ => false

/-- Outcome of one `maybe_compile_srs` call, mirroring the three paths
through its `try`/`except`: normal completion, `FileNotFoundError`
(tool not installed, warning printed), `CalledProcessError` (tool
present but exited non-zero, reported to stderr). -/
inductive CompileOutcome where
  | compiled
  | toolMissing
  | failed
deriving DecidableEq

/-- Environment for the external `sing-box` invocation: whether the
binary exists on `PATH`, and whether a run on a given JSON source exits
with status 0. -/
structure ToolEnv where
  installed : Bool
  exitOk : String → Bool

/-- Embeds `maybe_compile_srs` of `build.py`: the subprocess call either
completes, raises `FileNotFoundError` (caught, warning), or raises
`CalledProcessError` from `check=True` (caught, printed to stderr).
No exception escapes; the function always returns. -/
def maybe_compile_srs (env : ToolEnv) (json_path : String)
    (_srs_path : String) : CompileOutcome :=
  if env.installed then
    if env.exitOk json_path then CompileOutcome.compiled
    else CompileOutcome.failed
  else CompileOutcome.toolMissing

/-- Content of one file written during a run. -/
inductive FileData where
  | yaml (d : ClashYaml)
  | json (d : SBSource)
  | srs (compiledFrom : String)

/-- Observable result of one run of `main`: the output files written
(path and content, in write order — the `.srs` artifacts are written by
the external tool when its invocation succeeds), the compile attempts
made, and whether the run finished without an uncaught exception. -/
structure RunResult where
  writes : List (String × FileData)
  compiles : List (String × CompileOutcome)
  ok : Bool

/-- Embeds `main` of `build.py` from the load step on: the four fetched
documents are given as already-parsed YAML values (`fetch` writes only
the downloaded inputs under `rules/`, which are not output artifacts),
a `ValueError` from any `load_payload` call propagates and aborts the
run before anything is written, and otherwise the three YAML exports,
the three JSON exports and the three compile attempts happen in program
order. (The source calls this function `main`; Lean reserves that name
for the `IO` entry point, hence `mainRun`.) -/
def mainRun (direct_doc priv_doc cncidr_doc google_doc : YVal)
    (env : ToolEnv) : RunResult :=
  match load_payload direct_doc with
  | .error _ => ⟨[], [], false⟩
  | .ok direct =>
  match load_payload priv_doc with
  | .error _ => ⟨[], [], false⟩
  | .ok priv =>
  match load_payload cncidr_doc with
  | .error _ => ⟨[], [], false⟩
  | .ok cncidr =>
  match load_payload google_doc with
  | .error _ => ⟨[], [], false⟩
  | .ok google =>
  let g_suffixes := (split_domains google).1
  let direct_filtered := remove_intersections direct g_suffixes
  let yamlWrites : List (String × FileData) :=
    [("out/clash/direct.yaml", FileData.yaml (save_clash_yaml direct_filtered)),
     ("out/clash/private.yaml", FileData.yaml (save_clash_yaml priv)),
     ("out/clash/cncidr.yaml", FileData.yaml (save_clash_yaml cncidr))]
  let jsonWrites : List (String × FileData) :=
    [("out/singbox/direct.json",
        FileData.json (to_singbox_source_for_domains direct_filtered)),
     ("out/singbox/private.json",
        FileData.json (to_singbox_source_for_domains priv)),
     ("out/singbox/cncidr.json",
        FileData.json (to_singbox_source_for_ipcidr cncidr))]
  let compiles : List (String × CompileOutcome) :=
    ["direct", "private", "cncidr"].map (fun n =>
      (n, maybe_compile_srs env ("out/singbox/" ++ n ++ ".json")
            ("out/srs/" ++ n ++ ".srs")))
  let srsWrites : List (String × FileData) :=
    compiles.filterMap (fun p =>
      match p.2 with
      | CompileOutcome.compiled =>
        some ("out/srs/" ++ p.1 ++ ".srs",
              FileData.srs ("out/singbox/" ++ p.1 ++ ".json"))
      | _ => none)
  ⟨yamlWrites ++ jsonWrites ++ srsWrites, compiles, true⟩

/-- Closed form of the reducer loop: keep the entries whose normalized
stripped form misses every exclusion suffix, and emit each survivor
through `emitEntry`. -/
theorem remove_intersections_eq_filter_map (A gs : List String) :
    remove_intersections A gs =
      (A.filter (fun d => !hit gs (normalize_domain (stripQW d)))).map
        emitEntry := by
  induction A with
  | nil => rfl
  | cons d rest ih =>
    cases h : hit gs (normalize_domain (stripQW d)) with
    | true => simp [remove_intersections, h, List.filter_cons, ih]
    | false => simp [remove_intersections, h, List.filter_cons, ih, emitEntry]

/-- Normalizing the emitted string gives the same result as normalizing
the stripped entry the loop actually tested. -/
theorem normalize_emitEntry (d : String) :
    normalize_domain (emitEntry d) = normalize_domain (stripQW d) := by
  unfold emitEntry
  by_cases h : stripQW d == ""
  · have h2 : stripQW d = "" := by simpa using h
    simp only [h, if_pos]
    have h3 : normalize_domain d = "" := by
      simp [normalize_domain, h2]
      intro hcontra
      cases hcontra
    rw [h2, h3]
    rfl
  · simp [h]

/-- Every string in the reducer output has a normalized form missing all
exclusion suffixes. -/
theorem hit_eq_false_of_mem_remove {x : String} {A gs : List String}
    (hx : x ∈ remove_intersections A gs) :
    hit gs (normalize_domain x) = false := by
  rw [remove_intersections_eq_filter_map] at hx
  obtain ⟨d, hd, hdx⟩ := List.mem_map.mp hx
  have hk := (List.mem_filter.mp hd).2
  rw [← hdx, normalize_emitEntry]
  simpa using hk

/-- C1: exclusion soundness of the Domain Set Reducer — an entry of the
base list whose normalized form equals an exclusion suffix `s`, or ends
with `"." ++ s`, never appears in the output of
`remove_intersections`. -/
theorem C1_exclusion_soundness (A gs : List String) (d s : String)
    (hs : s ∈ gs) (_hd : d ∈ A)
    (hrel : normalize_domain d = s ∨
      endsWithDot (normalize_domain d) s = true) :
    d ∉ remove_intersections A gs := by
  intro hmem
  have hfalse := hit_eq_false_of_mem_remove hmem
  have htrue : hit gs (normalize_domain d) = true := by
    apply List.any_eq_true.mpr
    refine ⟨s, hs, ?_⟩
    rcases hrel with h | h <;> simp [h]
  rw [htrue] at hfalse
  cases hfalse

/-- Witness for C1 at a concrete input: `a.google.com` is a dot-boundary
subdomain of the exclusion suffix `google.com` and is dropped. -/
theorem C1_exclusion_soundness_witness :
    "a.google.com" ∉
      remove_intersections ["a.google.com", "example.com"] ["google.com"] :=
  C1_exclusion_soundness ["a.google.com", "example.com"] ["google.com"]
    "a.google.com" "google.com" (by decide) (by decide) (Or.inr (by decide))

/-- C2 counterexample: with the empty exclusion set every entry has no
dot-boundary relation to any exclusion suffix (vacuously), yet the entry
`'example.com'` (single-quoted) is absent from the output — the reducer
emits its quote-stripped form `example.com` instead of the entry
itself. -/
theorem C2_counterexample :
    remove_intersections ["\x27example.com\x27"] [] = ["example.com"] ∧
    "\x27example.com\x27" ∉
      remove_intersections ["\x27example.com\x27"] [] := by
  decide

/-- C2 amended: if the normalized form of the quote/whitespace-stripped
entry (which is what the loop compares) has no dot-boundary relation to
any exclusion suffix, then the emitted form of the entry — its stripped
form, or the entry itself when stripping yields the empty string — is
present in the reduced output; and the concrete scenario of the claim
holds as stated. -/
theorem C2_exclusion_completeness (A gs : List String) (d : String)
    (hd : d ∈ A)
    (hmiss : ∀ s ∈ gs, ¬(normalize_domain (stripQW d) = s ∨
        endsWithDot (normalize_domain (stripQW d)) s = true)) :
    emitEntry d ∈ remove_intersections A gs ∧
    remove_intersections ["+.a.google.com", "notgoogle.com", "example.com"]
      ["google.com"] = ["notgoogle.com", "example.com"] := by
  refine ⟨?_, by decide⟩
  rw [remove_intersections_eq_filter_map]
  apply List.mem_map_of_mem
  apply List.mem_filter.mpr
  refine ⟨hd, ?_⟩
  have hfalse : hit gs (normalize_domain (stripQW d)) = false := by
    apply List.any_eq_false.mpr
    intro s hs
    have h2 := hmiss s hs
    simp only [Bool.or_eq_true, beq_iff_eq]
    tauto
  simp [hfalse]

/-- Witness for C2 at the claim's own scenario input. -/
theorem C2_exclusion_completeness_witness :
    emitEntry "notgoogle.com" ∈
      remove_intersections ["+.a.google.com", "notgoogle.com", "example.com"]
        ["google.com"] ∧
    remove_intersections ["+.a.google.com", "notgoogle.com", "example.com"]
      ["google.com"] = ["notgoogle.com", "example.com"] :=
  C2_exclusion_completeness
    ["+.a.google.com", "notgoogle.com", "example.com"] ["google.com"]
    "notgoogle.com" (by decide) (by decide)

/-- C3 counterexample: with the empty exclusion set, the single-quoted
entry comes back stripped, so the output differs from the input list. -/
theorem C3_counterexample :
    remove_intersections ["\x27a\x27"] [] ≠ ["\x27a\x27"] := by
  decide

/-- C3 amended: reducing against the empty exclusion set never drops an
entry, but it maps each entry to its emitted form — the
quote/whitespace-stripped string, or the original entry unchanged when
stripping yields the empty string. -/
theorem C3_empty_exclusion (A : List String) :
    remove_intersections A [] = A.map emitEntry := by
  rw [remove_intersections_eq_filter_map]
  congr 1
  apply List.filter_eq_self.mpr
  intro a _
  simp [hit]

/-- C4 counterexample: the retained entry `"  b  "` is emitted as `"b"`,
so whitespace stripping is reflected in the emitted string, contradicting
the claim that the original un-normalized input string is emitted. -/
theorem C4_counterexample :
    remove_intersections ["  b  "] [] = ["b"] ∧
    "  b  " ∉ remove_intersections ["  b  "] [] := by
  decide

/-- C4 amended: for every retained entry the reducer emits the
quote/whitespace-stripped form of the input string (the original string
only when stripping yields the empty string); the wildcard-marker
removal performed by `normalize_domain` is used only inside the
membership comparison and is never reflected in the emitted string
(`emitEntry` does not touch the marker). -/
theorem C4_output_form (A gs : List String) :
    remove_intersections A gs =
      (A.filter (fun d => !hit gs (normalize_domain (stripQW d)))).map
        emitEntry :=
  remove_intersections_eq_filter_map A gs

/-- The result of `sorted_set` (Python `sorted(set(xs))`) is duplicate
free and sorted. -/
theorem sorted_set_nodup_sorted (xs : List String) :
    (sorted_set xs).Nodup ∧ List.Sorted (· ≤ ·) (sorted_set xs) :=
  ⟨(List.perm_insertionSort _ xs.dedup).nodup_iff.mpr (List.nodup_dedup xs),
   List.sorted_insertionSort _ xs.dedup⟩

/-- C5 counterexample: the `ip_cidr` rule block reproduces its input
(stripped) with duplicates intact, and the YAML `payload` field
reproduces its input verbatim with duplicates intact — neither is
deduplicated or sorted as the claim requires of every block. -/
theorem C5_counterexample :
    (to_singbox_source_for_ipcidr ["b", "a", "a"]).rules =
      [SBRule.ip_cidr ["b", "a", "a"]] ∧
    (save_clash_yaml ["a", "a"]).payload = ["a", "a"] ∧
    ¬ List.Nodup ["b", "a", "a"] ∧
    ¬ List.Nodup ["a", "a"] := by
  refine ⟨rfl, rfl, by decide, by decide⟩

/-- C5 amended: only the `domain_suffix` and `domain` rule blocks of the
domain rule-source documents hold sorted, deduplicated entries; the
`ip_cidr` block holds the quote/whitespace-stripped input entries in
input order with duplicates retained, and the YAML `payload` field holds
the input list verbatim. -/
theorem C5_export_block_contents :
    (∀ ds : List String, ∀ r ∈ (to_singbox_source_for_domains ds).rules,
        r.entries.Nodup ∧ List.Sorted (· ≤ ·) r.entries) ∧
    (∀ cs : List String, (to_singbox_source_for_ipcidr cs).rules =
        [SBRule.ip_cidr (cs.map stripQW)]) ∧
    (∀ ps : List String, (save_clash_yaml ps).payload = ps) := by
  refine ⟨?_, fun cs => rfl, fun ps => rfl⟩
  intro ds r hr
  unfold to_singbox_source_for_domains at hr
  simp only [List.mem_append] at hr
  rcases hr with h | h
  · split at h
    · cases h
    · rw [List.mem_singleton.mp h]
      exact sorted_set_nodup_sorted _
  · split at h
    · cases h
    · rw [List.mem_singleton.mp h]
      exact sorted_set_nodup_sorted _

/-- C6 counterexample: the two categories produced by `split_domains`
need not be disjoint — `+.a` lands in the suffix category as `a` while
the plain entry `a` lands in the exact category, so `a` is in both. -/
theorem C6_counterexample :
    split_domains ["+.a", "a"] = (["a"], ["a"]) ∧
    "a" ∈ (split_domains ["+.a", "a"]).1 ∧
    "a" ∈ (split_domains ["+.a", "a"]).2 := by
  decide

/-- The two categories of `split_domains`, concatenated, are a
permutation of the normalized input entries: each input entry lands in
exactly one category, carrying its marker-stripped normalized form. -/
theorem split_domains_perm (ds : List String) :
    ((split_domains ds).1 ++ (split_domains ds).2).Perm
      (ds.map normalize_domain) := by
  induction ds with
  | nil => exact List.Perm.refl _
  | cons d rest ih =>
    cases h : startsPlusDot (stripQW d) with
    | true =>
      have hsplit : split_domains (d :: rest) =
          (dropMarker (stripQW d) :: (split_domains rest).1,
            (split_domains rest).2) := by
        simp [split_domains, h]
      have hnd : normalize_domain d = dropMarker (stripQW d) := by
        simp [normalize_domain, h]
      rw [hsplit]
      simp only [List.map_cons, hnd, List.cons_append]
      exact ih.cons _
    | false =>
      have hsplit : split_domains (d :: rest) =
          ((split_domains rest).1, stripQW d :: (split_domains rest).2) := by
        simp [split_domains, h]
      have hnd : normalize_domain d = stripQW d := by
        simp [normalize_domain, h]
      rw [hsplit]
      simp only [List.map_cons, hnd]
      exact List.Perm.trans List.perm_middle (ih.cons _)

/-- C6 amended: the suffix/exact split assigns each input entry to
exactly one category (the lengths add up), and the two categories
together are a permutation of the marker-stripped normalized input — so
their union as a set is the deduplicated normalized input set — but the
two categories need not be disjoint. -/
theorem C6_split_partition (ds : List String) :
    (split_domains ds).1.length + (split_domains ds).2.length = ds.length ∧
    ((split_domains ds).1 ++ (split_domains ds).2).Perm
      (ds.map normalize_domain) := by
  refine ⟨?_, split_domains_perm ds⟩
  have h := (split_domains_perm ds).length_eq
  simpa using h

/-- No entry of the exact category starts with the wildcard marker: the
splitter sent every marker-carrying entry to the suffix category. -/
theorem exacts_no_marker (ds : List String) :
    ∀ e ∈ (split_domains ds).2, startsPlusDot e = false := by
  induction ds with
  | nil => intro e he; cases he
  | cons d rest ih =>
    intro e he
    cases h : startsPlusDot (stripQW d) with
    | true =>
      have hsplit : split_domains (d :: rest) =
          (dropMarker (stripQW d) :: (split_domains rest).1,
            (split_domains rest).2) := by
        simp [split_domains, h]
      rw [hsplit] at he
      exact ih e he
    | false =>
      have hsplit : split_domains (d :: rest) =
          ((split_domains rest).1, stripQW d :: (split_domains rest).2) := by
        simp [split_domains, h]
      rw [hsplit] at he
      rcases List.mem_cons.mp he with he2 | he2
      · rw [he2]; exact h
      · exact ih e he2

/-- Splitting a list of entries that are already stripped and carry no
marker sends everything, unchanged and in order, to the exact
category. -/
theorem split_domains_fixed (es : List String)
    (hfix : ∀ e ∈ es, stripQW e = e)
    (hnm : ∀ e ∈ es, startsPlusDot e = false) :
    split_domains es = ([], es) := by
  induction es with
  | nil => rfl
  | cons e rest ih =>
    have h1 : stripQW e = e := hfix e (by simp)
    have h2 : startsPlusDot e = false := hnm e (by simp)
    have ih2 := ih (fun x hx => hfix x (by simp [hx]))
      (fun x hx => hnm x (by simp [hx]))
    simp [split_domains, h1, h2, ih2]

/-- C7 counterexample: re-running the splitter on its own output is not
the identity — the first split of `["+.a"]` yields suffix category
`["a"]` and empty exact category, and splitting that (already sorted)
suffix category reclassifies `a` as an exact entry, yielding a different
output. -/
theorem C7_counterexample :
    split_domains ["+.a"] = (["a"], []) ∧
    split_domains ((split_domains ["+.a"]).1) = ([], ["a"]) := by
  decide

/-- C7 amended: the splitter is not idempotent on the suffix category
(its entries lost the `+.` marker and are reclassified as exact on a
second pass, as the counterexample shows); on the exact category a
second pass is the identity — it returns an empty suffix category and
the same exact category — provided every exact entry is a fixed point of
quote/whitespace stripping (exact entries never carry the marker by
construction). -/
theorem C7_resplit_exacts (ds : List String)
    (hfix : ∀ e ∈ (split_domains ds).2, stripQW e = e) :
    split_domains ((split_domains ds).2) = ([], (split_domains ds).2) :=
  split_domains_fixed _ hfix (fun e he => exacts_no_marker ds e he)

/-- Witness for C7 at a concrete input: the exact category of
`["+.a", "b"]` is `["b"]`, and re-splitting it keeps it intact. -/
theorem C7_resplit_exacts_witness :
    split_domains ((split_domains ["+.a", "b"]).2) =
      ([], (split_domains ["+.a", "b"]).2) :=
  C7_resplit_exacts ["+.a", "b"] (by decide)

/-- C10: the CIDR exporter emits exactly one `ip_cidr` rule block for
every input, holding the stripped entries — an empty list when the input
is empty — whereas the domain exporter omits a category block entirely
when the category is empty, emitting no rule blocks at all for the empty
input. -/
theorem C10_ipcidr_block_always_emitted :
    (∀ cs : List String, (to_singbox_source_for_ipcidr cs).rules =
        [SBRule.ip_cidr (cs.map stripQW)]) ∧
    (to_singbox_source_for_ipcidr []).rules = [SBRule.ip_cidr []] ∧
    (to_singbox_source_for_domains []).rules = [] :=
  ⟨fun _ => rfl, rfl, rfl⟩

/-- C8: atomic abort on a malformed source — if any of the four fetched
documents fails `load_payload` (top level not a mapping with a
list-valued `payload` field), the run ends in failure with no output
file written and no compile attempted. -/
theorem C8_abort_on_malformed (d1 d2 d3 d4 : YVal) (env : ToolEnv)
    (hbad : loadFails d1 = true ∨ loadFails d2 = true ∨
      loadFails d3 = true ∨ loadFails d4 = true) :
    (mainRun d1 d2 d3 d4 env).writes = [] ∧
    (mainRun d1 d2 d3 d4 env).compiles = [] ∧
    (mainRun d1 d2 d3 d4 env).ok = false := by
  cases e1 : load_payload d1 with
  | error a1 => simp [mainRun, e1]
  | ok v1 =>
    cases e2 : load_payload d2 with
    | error a2 => simp [mainRun, e1, e2]
    | ok v2 =>
      cases e3 : load_payload d3 with
      | error a3 => simp [mainRun, e1, e2, e3]
      | ok v3 =>
        cases e4 : load_payload d4 with
        | error a4 => simp [mainRun, e1, e2, e3, e4]
        | ok v4 =>
          exfalso
          rcases hbad with hb | hb | hb | hb <;>
            simp [loadFails, e1, e2, e3, e4] at hb

/-- Witness for C8: a `null` document is not a mapping, so the run
aborts with nothing written. -/
theorem C8_abort_on_malformed_witness :
    (mainRun YVal.null YVal.null YVal.null YVal.null
      ⟨true, fun _ => true⟩).writes = [] :=
  (C8_abort_on_malformed YVal.null YVal.null YVal.null YVal.null
    ⟨true, fun _ => true⟩ (Or.inl rfl)).1

/-- C9: compiler invocation is non-fatal — whenever all four sources
load, the run completes successfully, all three compile targets are
attempted regardless of the tool environment, the three JSON rule
sources are among the written files, and with the tool absent every
attempt reports `toolMissing` and no `.srs` artifact appears (exactly
the three YAML and three JSON files are written). -/
theorem C9_compile_nonfatal (d1 d2 d3 d4 : YVal) (env : ToolEnv)
    (h1 : loadFails d1 = false) (h2 : loadFails d2 = false)
    (h3 : loadFails d3 = false) (h4 : loadFails d4 = false) :
    (mainRun d1 d2 d3 d4 env).ok = true ∧
    (mainRun d1 d2 d3 d4 env).compiles.length = 3 ∧
    "out/singbox/direct.json" ∈
      (mainRun d1 d2 d3 d4 env).writes.map Prod.fst ∧
    "out/singbox/private.json" ∈
      (mainRun d1 d2 d3 d4 env).writes.map Prod.fst ∧
    "out/singbox/cncidr.json" ∈
      (mainRun d1 d2 d3 d4 env).writes.map Prod.fst ∧
    (env.installed = false →
      (∀ p ∈ (mainRun d1 d2 d3 d4 env).compiles,
        p.2 = CompileOutcome.toolMissing) ∧
      (mainRun d1 d2 d3 d4 env).writes.length = 6) := by
  cases e1 : load_payload d1 with
  | error a1 => rw [loadFails, e1] at h1; cases h1
  | ok v1 =>
  cases e2 : load_payload d2 with
  | error a2 => rw [loadFails, e2] at h2; cases h2
  | ok v2 =>
  cases e3 : load_payload d3 with
  | error a3 => rw [loadFails, e3] at h3; cases h3
  | ok v3 =>
  cases e4 : load_payload d4 with
  | error a4 => rw [loadFails, e4] at h4; cases h4
  | ok v4 =>
  refine ⟨?_, ?_, ?_, ?_, ?_, ?_⟩
  · simp [mainRun, e1, e2, e3, e4]
  · simp [mainRun, e1, e2, e3, e4]
  · simp [mainRun, e1, e2, e3, e4]
  · simp [mainRun, e1, e2, e3, e4]
  · simp [mainRun, e1, e2, e3, e4]
  · intro hinst
    constructor
    · intro p hp
      simp only [mainRun, e1, e2, e3, e4, List.mem_map] at hp
      obtain ⟨n, hn, hpn⟩ := hp
      rw [← hpn]
      simp [maybe_compile_srs, hinst]
    · simp [mainRun, e1, e2, e3, e4, maybe_compile_srs, hinst]

/-- Witness for C9: with all four documents well-formed and the tool
absent, the run still completes successfully. -/
theorem C9_compile_nonfatal_witness :
    (mainRun (YVal.map [("payload", YVal.list [YVal.s "a.b"])])
      (YVal.map [("payload", YVal.list [YVal.s "a.b"])])
      (YVal.map [("payload", YVal.list [YVal.s "a.b"])])
      (YVal.map [("payload", YVal.list [YVal.s "a.b"])])
      ⟨false, fun _ => false⟩).ok = true :=
  (C9_compile_nonfatal (YVal.map [("payload", YVal.list [YVal.s "a.b"])])
    (YVal.map [("payload", YVal.list [YVal.s "a.b"])])
    (YVal.map [("payload", YVal.list [YVal.s "a.b"])])
    (YVal.map [("payload", YVal.list [YVal.s "a.b"])])
    ⟨false, fun _ => false⟩ rfl rfl rfl rfl).1
